import Mathlib

/-!
Shallow embedding of the analysis core of `src/app.py` (zhubofenxi): the
timestamp normalizer (`parse_date`), the record sanitizer (sections C of the
script), the dependent filter engine (section D), and the aggregation and
ranking engine (section E).

Modelling conventions:
* Timestamps are exact rationals counting days since 1970-01-01 (unix days);
  the spreadsheet epoch 1899-12-30 is unix day -25569.  Python microsecond
  rounding is idealised away; the representable ranges of `datetime`
  (years 1..9999) and of `datetime64[ns]` (±2^63-1 ns) are modelled exactly
  in days / nanoseconds.
* Cell values are an inductive type: a number, a text string, an
  already-parsed datetime, or an empty/NaN cell.
* Python `float(x)` on strings and `pd.to_numeric` are both modelled by one
  exact decimal-string parser; `pd.to_datetime` on free text is an external
  library call and is threaded through as a parameter `toDT`.
* `pd.sort_values` / Python `sorted` are modelled by stable insertion sort;
  `groupby` with its default `sort=True` orders groups by key ascending.
-/

namespace Zhubo

/-- A raw spreadsheet cell as pandas hands it to the script: a number, a
text string, an already-typed datetime (`t` in unix days), or missing. -/
inductive CellValue where
  | num (q : ℚ)
  | text (s : String)
  | dt (t : ℚ)
  | empty
deriving DecidableEq, Repr

/-- Value of a digit string, most significant first. -/
def digitsToNat (cs : List Char) : ℕ :=
  cs.foldl (fun a c => 10 * a + (c.toNat - 48)) 0

/-- Python `str.strip()`: remove leading and trailing whitespace. -/
def strip (s : String) : String :=
  String.mk
    (((s.toList.dropWhile (fun c => c.isWhitespace)).reverse.dropWhile
        (fun c => c.isWhitespace)).reverse)

/-- Exact model of Python numeric-string parsing (`float(s)` /
`pd.to_numeric`): optional sign, digits, optional fractional part.
Returns `none` when the string is not a plain decimal numeral. -/
def ratOfDecimalString? (s : String) : Option ℚ :=
  let cs := (strip s).toList
  let (sign, body) : ℚ × List Char :=
    match cs with
    | '-' :: rest => (-1, rest)
    | '+' :: rest => (1, rest)
    | _ => (1, cs)
  let intPart := body.takeWhile (fun c => c.isDigit)
  let rest := body.dropWhile (fun c => c.isDigit)
  match rest with
  | [] =>
      if intPart = [] then none
      else some (sign * (digitsToNat intPart : ℚ))
  | '.' :: frac =>
      if frac.all (fun c => c.isDigit) && !(intPart = [] && frac = []) then
        some (sign * ((digitsToNat intPart : ℚ) +
          (digitsToNat frac : ℚ) / (10 ^ frac.length)))
      else none
  | _ => none

/-- Python `float(x)` on a cell: numbers pass through, numeric strings
parse, datetimes and missing cells raise (= `none`). -/
def pyFloat : CellValue → Option ℚ
  | .num q => some q
  | .text s => ratOfDecimalString? s
  | .dt _ => none
  | .empty => none

/-- The spreadsheet date epoch 1899-12-30, in unix days. -/
def epoch1899 : ℚ := -25569

/-- Nanoseconds per day. -/
def nsPerDay : ℚ := 86400000000000

/-- Unix day of 0001-01-01, the smallest `datetime.datetime`. -/
def pyDatetimeMin : ℚ := -719162

/-- Exclusive upper bound of `datetime.datetime` in unix days
(9999-12-31 is unix day 2932896). -/
def pyDatetimeMaxEx : ℚ := 2932897

/-- Largest `datetime64[ns]` magnitude in nanoseconds (2^63 - 1). -/
def ns64Max : ℚ := 9223372036854775807

/-- Whether `datetime(1899,12,30) + timedelta(days=...)` stays inside
Python `datetime`'s representable range (years 1..9999). -/
def inPyDatetimeRange (t : ℚ) : Prop :=
  pyDatetimeMin ≤ t ∧ t < pyDatetimeMaxEx

instance (t : ℚ) : Decidable (inPyDatetimeRange t) := by
  unfold inPyDatetimeRange; infer_instance

/-- Whether a timestamp (unix days) is representable as `datetime64[ns]`. -/
def inNsRange (t : ℚ) : Prop :=
  -ns64Max ≤ t * nsPerDay ∧ t * nsPerDay ≤ ns64Max

instance (t : ℚ) : Decidable (inNsRange t) := by
  unfold inNsRange; infer_instance

/-- Model of `pd.to_datetime(x, errors='coerce')` on a single cell:
numbers are nanoseconds since the unix epoch, strings go through the
library text parser `toDT`, datetimes pass through; anything out of the
`datetime64[ns]` range coerces to `NaT` (= `none`). -/
def pdToDatetime (toDT : String → Option ℚ) : CellValue → Option ℚ
  | .num q =>
      let t := q / nsPerDay
      if inNsRange t then some t else none
  | .text s =>
      match toDT s with
      | some t => if inNsRange t then some t else none
      | none => none
  | .dt t => if inNsRange t then some t else none
  | .empty => none

/-- Model of `parse_date` from `src/app.py` lines 84-88: try
`datetime(1899,12,30) + timedelta(days=float(x))` first; when `float(x)`
raises, or the sum leaves `datetime`'s range (OverflowError), fall back to
`pd.to_datetime(x, errors='coerce')`. -/
def parse_date (toDT : String → Option ℚ) (v : CellValue) : Option ℚ :=
  match pyFloat v with
  | some q =>
      let t := epoch1899 + q
      if inPyDatetimeRange t then some t else pdToDatetime toDT v
  | none => pdToDatetime toDT v

/-- Calendar year of a unix day number (proleptic Gregorian,
Howard Hinnant's civil-from-days; Lean's `Int` division is Euclidean,
which floors for the positive divisors used here). -/
def yearOfDay (z : ℤ) : ℤ :=
  let z' := z + 719468
  let era := z' / 146097
  let doe := z' - era * 146097
  let yoe := (doe - doe / 1460 + doe / 36524 - doe / 146096) / 365
  let y := yoe + era * 400
  let doy := doe - (365 * yoe + yoe / 4 - yoe / 100)
  let mp := (5 * doy + 2) / 153
  let m := mp + (if mp < 10 then 3 else -9)
  if m ≤ 2 then y + 1 else y

/-- Calendar date of a timestamp, as a unix day number (`dt.date`). -/
def dateOf (t : ℚ) : ℤ := ⌊t⌋

/-- Hour-of-day (0..23) of a timestamp in unix days (`dt.hour`). -/
def hourOf (t : ℚ) : ℕ :=
  (⌊(t - (⌊t⌋ : ℚ)) * 24⌋).toNat

/-- The hour bucket label `"H:00"` the script builds in line 102. -/
def hourLabel (t : ℚ) : String :=
  toString (hourOf t) ++ ":00"

/-- One row of the working frame after column selection and renaming
(line 81-82): the four mapped cells.  The `Name` cell is modelled by its
string rendering (`none` = missing/NaN). -/
structure RawRow where
  time : CellValue
  name : Option String
  cost : CellValue
  sales : CellValue
deriving DecidableEq, Repr

/-- Model of `pd.to_numeric(x, errors='coerce').fillna(0)` on one cell
(lines 104-105): numbers pass through (negative ones included), numeric
strings parse, everything else becomes `0`. -/
def toNum : CellValue → ℚ
  | .num q => q
  | .text s => (ratOfDecimalString? s).getD 0
  | .dt _ => 0
  | .empty => 0

/-- The clean record the engine operates on: one surviving row of `df`
after section C of the script. -/
structure CleanRecord where
  stdTime : ℚ
  date : ℤ
  hour : String
  name : String
  cost : ℚ
  sales : ℚ
  gmv : ℚ
  roi : ℚ
  cpa : ℚ
deriving DecidableEq, Repr

/-- The resolved timestamp of a row: `parse_date` (line 90) followed by the
column-level `pd.to_datetime(..., errors='coerce')` (line 91), which
coerces values outside the `datetime64[ns]` range to `NaT`. -/
def stdTimeOf (toDT : String → Option ℚ) (v : CellValue) : Option ℚ :=
  match parse_date toDT v with
  | some t => if inNsRange t then some t else none
  | none => none

/-- The sanitizer, lines 90-113 of `src/app.py`: resolve the timestamp,
drop `NaT` rows, drop rows with year ≤ 2020, derive date/hour buckets,
coerce cost/sales (missing/non-numeric ↦ 0), derive GMV/ROI/CPA, drop rows
with missing or blank-after-trim names, and drop rows with cost ≤ 0. -/
def sanitize (toDT : String → Option ℚ) (price : ℚ) (rows : List RawRow) :
    List CleanRecord :=
  rows.filterMap (fun row =>
    match stdTimeOf toDT row.time with
    | none => none
    | some t =>
      if 2020 < yearOfDay (dateOf t) then
        match row.name with
        | none => none
        | some n =>
          if strip n ≠ "" then
            let cost := toNum row.cost
            let sales := toNum row.sales
            let gmv := sales * price
            if 0 < cost then
              some { stdTime := t, date := dateOf t, hour := hourLabel t,
                     name := n, cost := cost, sales := sales, gmv := gmv,
                     roi := if 0 < cost then gmv / cost else 0,
                     cpa := if 0 < sales then cost / sales else 0 }
            else none
          else none
      else none)

/-! ### Dependent filter engine (section D of the script) -/

/-- Stable lexicographic sort of a string list (Python `sorted`). -/
def sortStrings (l : List String) : List String :=
  l.insertionSort (fun a b => a ≤ b)

/-- Numeric key of an hour label: `int(x.split(':')[0])`. -/
def hourKey (s : String) : ℕ :=
  digitsToNat (s.toList.takeWhile (fun c => c.isDigit))

/-- Stable sort of hour labels by numeric hour
(`sorted(..., key=lambda x: int(x.split(':')[0]))`). -/
def sortHours (l : List String) : List String :=
  l.insertionSort (fun a b => hourKey a ≤ hourKey b)

/-- The records whose calendar date lies in the inclusive selected range
(lines 133-136). -/
def periodOf (rs : List CleanRecord) (d1 d2 : ℤ) : List CleanRecord :=
  rs.filter (fun r => decide (d1 ≤ r.date ∧ r.date ≤ d2))

/-- Legal hour choices in `TimeThenPerformer` mode (line 156): the distinct
hour buckets present in the period, sorted by numeric hour. -/
def availableHoursTTP (rs : List CleanRecord) (d1 d2 : ℤ) : List String :=
  sortHours ((periodOf rs d1 d2).map (fun r => r.hour)).dedup

/-- Legal performer choices in `TimeThenPerformer` mode (lines 170-178):
distinct names of the period records whose hour bucket is selected,
sorted lexicographically. -/
def legalPerformersTTP (rs : List CleanRecord) (d1 d2 : ℤ)
    (selHours : List String) : List String :=
  sortStrings
    (((periodOf rs d1 d2).filter (fun r => decide (r.hour ∈ selHours))).map
      (fun r => r.name)).dedup

/-- Legal performer choices in `PerformerThenTime` mode (line 194). -/
def availablePerformersPTT (rs : List CleanRecord) (d1 d2 : ℤ) :
    List String :=
  sortStrings ((periodOf rs d1 d2).map (fun r => r.name)).dedup

/-- Legal hour choices in `PerformerThenTime` mode (lines 210-218):
distinct hour buckets of the period records whose performer is selected,
sorted by numeric hour. -/
def legalHoursPTT (rs : List CleanRecord) (d1 d2 : ℤ)
    (selNames : List String) : List String :=
  sortHours
    (((periodOf rs d1 d2).filter (fun r => decide (r.name ∈ selNames))).map
      (fun r => r.hour)).dedup

/-- The two filter-priority modes of the sidebar radio (line 144). -/
inductive FilterMode where
  | timeThenPerformer
  | performerThenTime
deriving DecidableEq, Repr

/-- The distinct stop conditions of section D (`st.warning` + `st.stop`). -/
inductive FilterError where
  | noDataInPeriod
  | selectionRequired
  | noDataForSelection
deriving DecidableEq, Repr

/-- Output of the filter engine: the final filtered frame plus the two
legal choice sets that were offered. -/
structure FilterOutput where
  finalRecords : List CleanRecord
  legalHours : List String
  legalPerformers : List String
deriving DecidableEq, Repr

/-- Result of one filter pass: either a named stop condition or an output. -/
inductive FilterResult where
  | error (e : FilterError)
  | ok (o : FilterOutput)
deriving DecidableEq, Repr

/-- The dependent filter engine, lines 133-228: date-range restriction,
then in the chosen mode the priority dimension is selected first and the
second dimension's choices are computed from the already-restricted data.
Each `st.stop()` is a distinct error. -/
def filterEngine (rs : List CleanRecord) (d1 d2 : ℤ) (mode : FilterMode)
    (selHours selNames : List String) : FilterResult :=
  let period := periodOf rs d1 d2
  if period.isEmpty then .error .noDataInPeriod
  else
    match mode with
    | .timeThenPerformer =>
      if selHours.isEmpty then .error .selectionRequired
      else
        let step1 := period.filter (fun r => decide (r.hour ∈ selHours))
        if step1.isEmpty then .error .noDataForSelection
        else
          .ok { finalRecords :=
                  step1.filter (fun r => decide (r.name ∈ selNames)),
                legalHours := availableHoursTTP rs d1 d2,
                legalPerformers := legalPerformersTTP rs d1 d2 selHours }
    | .performerThenTime =>
      if selNames.isEmpty then .error .selectionRequired
      else
        let step1 := period.filter (fun r => decide (r.name ∈ selNames))
        if step1.isEmpty then .error .noDataForSelection
        else
          .ok { finalRecords :=
                  step1.filter (fun r => decide (r.hour ∈ selHours)),
                legalHours := legalHoursPTT rs d1 d2 selNames,
                legalPerformers := availablePerformersPTT rs d1 d2 }

/-! ### Aggregation and ranking (section E of the script) -/

/-- One row of the ranking table: the `groupby('Name').agg` result plus
the recomputed ratio columns (lines 249-257). -/
structure PerfSummary where
  name : String
  cost : ℚ
  gmv : ℚ
  sales : ℚ
  rowCount : ℕ
  roi : ℚ
  cpa : ℚ
deriving DecidableEq, Repr

/-- Model of `groupby('Name').agg(...)` with the default `sort=True` (groups ordered
by key ascending), then ROI/CPA recomputed from the summed totals with
Python-truthiness guards (`if x['Cost']` / `if x['Sales']`, i.e. ≠ 0). -/
def aggregate (rs : List CleanRecord) : List PerfSummary :=
  (sortStrings ((rs.map (fun r => r.name)).dedup)).map (fun n =>
    let g := rs.filter (fun r => decide (r.name = n))
    let c := (g.map (fun r => r.cost)).sum
    let v := (g.map (fun r => r.gmv)).sum
    let s := (g.map (fun r => r.sales)).sum
    { name := n, cost := c, gmv := v, sales := s, rowCount := g.length,
      roi := if c ≠ 0 then v / c else 0,
      cpa := if s ≠ 0 then c / s else 0 })

/-- Headline total spend (line 233). -/
def t_cost (rs : List CleanRecord) : ℚ := (rs.map (fun r => r.cost)).sum

/-- Headline total GMV (line 234). -/
def t_gmv (rs : List CleanRecord) : ℚ := (rs.map (fun r => r.gmv)).sum

/-- Headline total sales (line 235). -/
def t_sale (rs : List CleanRecord) : ℚ := (rs.map (fun r => r.sales)).sum

/-- Blended headline ROI (line 236, guard is Python truthiness of the
total, i.e. ≠ 0). -/
def avg_roi (rs : List CleanRecord) : ℚ :=
  if t_cost rs ≠ 0 then t_gmv rs / t_cost rs else 0

/-- Blended headline cost-per-sale (line 237). -/
def avg_cpa (rs : List CleanRecord) : ℚ :=
  if t_sale rs ≠ 0 then t_cost rs / t_sale rs else 0

/-- The five sortable metrics of the ranking selectbox (lines 272-278). -/
inductive RankMetric where
  | roi
  | gmv
  | sales
  | cost
  | cpa
deriving DecidableEq, Repr

/-- The column a metric sorts on. -/
def metricVal : RankMetric → PerfSummary → ℚ
  | .roi, g => g.roi
  | .gmv, g => g.gmv
  | .sales, g => g.sales
  | .cost, g => g.cost
  | .cpa, g => g.cpa

/-- Line 280: ascending exactly for the cost-per-sale column. -/
def ascendingOrder (m : RankMetric) : Bool := m = RankMetric.cpa

/-- Model of `sort_values` on the chosen metric (line 282), as a stable
sort: descending for every metric except cost-per-sale, ascending for
cost-per-sale. -/
def rank (m : RankMetric) (l : List PerfSummary) : List PerfSummary :=
  if ascendingOrder m then
    l.insertionSort (fun a b => metricVal m a ≤ metricVal m b)
  else
    l.insertionSort (fun a b => metricVal m b ≤ metricVal m a)

end Zhubo

namespace Zhubo

/-! ### Shared helper lemmas -/

/-- Characterization of membership in the sanitizer's output: every clean
record comes from an input row that passed every filter, with all derived
fields computed as in lines 90-113. -/
theorem sanitize_mem {toDT : String → Option ℚ} {price : ℚ}
    {rows : List RawRow} {r : CleanRecord} (h : r ∈ sanitize toDT price rows) :
    ∃ row ∈ rows, ∃ t, stdTimeOf toDT row.time = some t ∧
      r.stdTime = t ∧ r.date = dateOf t ∧ r.hour = hourLabel t ∧
      2020 < yearOfDay (dateOf t) ∧ row.name = some r.name ∧
      strip r.name ≠ "" ∧ r.cost = toNum row.cost ∧ r.sales = toNum row.sales ∧
      r.gmv = r.sales * price ∧ 0 < r.cost ∧
      r.roi = r.gmv / r.cost ∧
      r.cpa = (if 0 < r.sales then r.cost / r.sales else 0) := by
  simp only [sanitize, List.mem_filterMap] at h
  obtain ⟨row, hrow, hmk⟩ := h
  refine ⟨row, hrow, ?_⟩
  cases hst : stdTimeOf toDT row.time with
  | none => rw [hst] at hmk; exact absurd hmk (by simp)
  | some t =>
    rw [hst] at hmk
    simp only at hmk
    by_cases hy : 2020 < yearOfDay (dateOf t)
    · rw [if_pos hy] at hmk
      cases hn : row.name with
      | none => rw [hn] at hmk; exact absurd hmk (by simp)
      | some n =>
        rw [hn] at hmk
        simp only at hmk
        by_cases hs : strip n ≠ ""
        · rw [if_pos hs] at hmk
          by_cases hc : 0 < toNum row.cost
          · rw [if_pos hc] at hmk
            obtain rfl : _ = r := Option.some.inj hmk
            refine ⟨t, rfl, rfl, rfl, rfl, hy, rfl, hs, rfl, rfl, rfl, hc, ?_, rfl⟩
            simp only [if_pos hc]
          · rw [if_neg hc] at hmk; exact absurd hmk (by simp)
        · rw [if_neg hs] at hmk; exact absurd hmk (by simp)
    · rw [if_neg hy] at hmk; exact absurd hmk (by simp)

/-- Every record surviving sanitization has strictly positive spend. -/
theorem sanitize_cost_pos {toDT : String → Option ℚ} {price : ℚ}
    {rows : List RawRow} {r : CleanRecord} (h : r ∈ sanitize toDT price rows) :
    0 < r.cost := by
  obtain ⟨row, -, t, -, -, -, -, -, -, -, -, -, -, hc, -, -⟩ := sanitize_mem h
  exact hc

/-- Membership in the `TimeThenPerformer` legal-performer set. -/
theorem mem_legalPerformersTTP {rs : List CleanRecord} {d1 d2 : ℤ}
    {selHours : List String} {x : String} :
    x ∈ legalPerformersTTP rs d1 d2 selHours ↔
      ∃ r ∈ periodOf rs d1 d2, r.hour ∈ selHours ∧ r.name = x := by
  simp [legalPerformersTTP, sortStrings, List.mem_insertionSort, List.mem_dedup,
    List.mem_map, List.mem_filter, decide_eq_true_eq]
  tauto

/-- Membership in the `PerformerThenTime` legal-hour set. -/
theorem mem_legalHoursPTT {rs : List CleanRecord} {d1 d2 : ℤ}
    {selNames : List String} {x : String} :
    x ∈ legalHoursPTT rs d1 d2 selNames ↔
      ∃ r ∈ periodOf rs d1 d2, r.name ∈ selNames ∧ r.hour = x := by
  simp [legalHoursPTT, sortHours, List.mem_insertionSort, List.mem_dedup,
    List.mem_map, List.mem_filter, decide_eq_true_eq]
  tauto

/-- When the filter engine completes, its final records all come from the
input record set (it only ever filters). -/
theorem filterEngine_ok_subset {rs : List CleanRecord} {d1 d2 : ℤ}
    {mode : FilterMode} {hs ns : List String} {out : FilterOutput}
    (h : filterEngine rs d1 d2 mode hs ns = .ok out) :
    ∀ r ∈ out.finalRecords, r ∈ rs := by
  intro r hr
  cases mode <;>
  · unfold filterEngine at h
    simp only at h
    split at h
    · exact absurd h (by simp)
    · split at h
      · exact absurd h (by simp)
      · split at h
        · exact absurd h (by simp)
        · obtain rfl : _ = out := FilterResult.ok.inj h
          exact List.mem_of_mem_filter
            (List.mem_of_mem_filter (List.mem_of_mem_filter hr))

/-- When every input record has positive spend, every aggregated group has
positive total spend and its ROI guard takes the division branch. -/
theorem aggregate_cost_pos {rs : List CleanRecord}
    (hpos : ∀ r ∈ rs, 0 < r.cost) :
    ∀ g ∈ aggregate rs, 0 < g.cost ∧ g.roi = g.gmv / g.cost := by
  intro g hg
  simp only [aggregate, List.mem_map] at hg
  obtain ⟨n, hn, rfl⟩ := hg
  simp only [sortStrings, List.mem_insertionSort, List.mem_dedup,
    List.mem_map] at hn
  obtain ⟨r0, hr0, rfl⟩ := hn
  have hmem : r0 ∈ rs.filter (fun r => decide (r.name = r0.name)) :=
    List.mem_filter.mpr ⟨hr0, by simp⟩
  have hone : 0 < ((rs.filter (fun r => decide (r.name = r0.name))).map
      (fun r => r.cost)).sum := by
    apply List.sum_pos
    · intro x hx
      obtain ⟨r, hr, rfl⟩ := List.mem_map.mp hx
      exact hpos r (List.mem_of_mem_filter hr)
    · exact List.ne_nil_of_mem (List.mem_map.mpr ⟨r0, hmem, rfl⟩)
  refine ⟨hone, ?_⟩
  simp only [if_pos (ne_of_gt hone)]

/-! ### Concrete evaluation helpers for witnesses and counterexamples -/

/-- The integer spreadsheet serial 46023 resolves to unix day 20454
(2026-01-01 00:00), for any library text parser. -/
theorem stdTimeOf_46023 (toDT : String → Option ℚ) :
    stdTimeOf toDT (.num 46023) = some 20454 := by
  norm_num [stdTimeOf, parse_date, pyFloat, epoch1899, inNsRange, ns64Max,
    nsPerDay, inPyDatetimeRange, pyDatetimeMin, pyDatetimeMaxEx]

/-- A raw row on serial 46023 with the given name/cost/sales cells. -/
def witRow (nm : String) (c s : ℚ) : RawRow :=
  { time := .num 46023, name := some nm, cost := .num c, sales := .num s }

/-- The clean record `witRow` sanitizes to (when it survives). -/
def witRec (nm : String) (price c s : ℚ) : CleanRecord :=
  { stdTime := 20454, date := 20454, hour := "0:00", name := nm,
    cost := c, sales := s, gmv := s * price,
    roi := s * price / c, cpa := if 0 < s then c / s else 0 }

/-- Evaluation of the sanitizer on one surviving `witRow`. -/
theorem sanitize_witRow (toDT : String → Option ℚ) (price : ℚ) (nm : String)
    (c s : ℚ) (hnm : strip nm ≠ "") (hc : 0 < c) :
    sanitize toDT price [witRow nm c s] = [witRec nm price c s] := by
  simp only [sanitize, List.filterMap_cons, List.filterMap_nil, witRow,
    stdTimeOf_46023]
  norm_num [dateOf, hourLabel, hourOf, toNum, yearOfDay, witRec]
  simp only [if_neg hnm, if_pos hc]
  rfl

/-- Evaluation of the sanitizer on a surviving `witRow` followed by more
rows. -/
theorem sanitize_cons_witRow (toDT : String → Option ℚ) (price : ℚ)
    (nm : String) (c s : ℚ) (rows : List RawRow) (hnm : strip nm ≠ "")
    (hc : 0 < c) :
    sanitize toDT price (witRow nm c s :: rows) =
      witRec nm price c s :: sanitize toDT price rows := by
  simp only [sanitize, List.filterMap_cons, witRow, stdTimeOf_46023]
  norm_num [dateOf, hourLabel, hourOf, toNum, yearOfDay, witRec]
  simp only [if_neg hnm, if_pos hc]
  rfl

/-- Aggregation of a single record forms one group with that record's
totals. -/
theorem aggregate_singleton (r : CleanRecord) :
    aggregate [r] =
      [{ name := r.name, cost := r.cost, gmv := r.gmv,
         sales := r.sales, rowCount := 1,
         roi := if r.cost ≠ 0 then r.gmv / r.cost else 0,
         cpa := if r.sales ≠ 0 then r.cost / r.sales else 0 }] := by
  simp [aggregate, sortStrings]

theorem not_bella_le_anna : ¬ (['b', 'e', 'l', 'l', 'a'] ≤ ['a', 'n', 'n', 'a']) := by
  decide

/-- Aggregating the two-row dataset whose first occurrence is "bella"
yields the groups in name-sorted order "anna" then "bella". -/
theorem aggregate_bella_anna :
    aggregate (sanitize (fun _ => none) 50
        [witRow "bella" 100 2, witRow "anna" 100 2]) =
      [{ name := "anna", cost := 100, gmv := 100, sales := 2, rowCount := 1,
         roi := 1, cpa := 50 },
       { name := "bella", cost := 100, gmv := 100, sales := 2, rowCount := 1,
         roi := 1, cpa := 50 }] := by
  rw [sanitize_cons_witRow _ _ _ _ _ _ (by decide) (by norm_num),
    sanitize_witRow _ _ _ _ _ (by decide) (by norm_num)]
  simp [aggregate, sortStrings, witRec, not_bella_le_anna]
  norm_num

end Zhubo

namespace Zhubo

/-! ### Claim theorems -/

/-- C1: Dependent-filtering monotonicity.  In both filter modes the second
dimension's legal-choice set is computed only from records already
restricted by the date range and by the priority dimension's selection:
in `TimeThenPerformer` mode the legal performers form a subset of the
performers present in the period, and replacing the selected hours by any
subset of them yields a subset (never a superset) of the original legal
performers; symmetrically for legal hours in `PerformerThenTime` mode. -/
theorem C1_dependent_filter_monotonicity (rs : List CleanRecord)
    (d1 d2 : ℤ) (hs hs' ns ns' : List String)
    (hh : hs' ⊆ hs) (hn : ns' ⊆ ns) :
    legalPerformersTTP rs d1 d2 hs ⊆ (periodOf rs d1 d2).map (fun r => r.name) ∧
    legalPerformersTTP rs d1 d2 hs' ⊆ legalPerformersTTP rs d1 d2 hs ∧
    legalHoursPTT rs d1 d2 ns ⊆ (periodOf rs d1 d2).map (fun r => r.hour) ∧
    legalHoursPTT rs d1 d2 ns' ⊆ legalHoursPTT rs d1 d2 ns := by
  refine ⟨?_, ?_, ?_, ?_⟩
  · intro x hx
    obtain ⟨r, hr, _, rfl⟩ := mem_legalPerformersTTP.mp hx
    exact List.mem_map.mpr ⟨r, hr, rfl⟩
  · intro x hx
    obtain ⟨r, hr, hhr, rfl⟩ := mem_legalPerformersTTP.mp hx
    exact mem_legalPerformersTTP.mpr ⟨r, hr, hh hhr, rfl⟩
  · intro x hx
    obtain ⟨r, hr, _, rfl⟩ := mem_legalHoursPTT.mp hx
    exact List.mem_map.mpr ⟨r, hr, rfl⟩
  · intro x hx
    obtain ⟨r, hr, hnr, rfl⟩ := mem_legalHoursPTT.mp hx
    exact mem_legalHoursPTT.mpr ⟨r, hr, hn hnr, rfl⟩

/-- C1 witness: the monotonicity theorem applied to a concrete one-record
dataset with the empty hour/performer subsets. -/
theorem C1_witness :
    legalPerformersTTP [witRec "Amy" 50 100 2] 20000 21000 ["0:00"] ⊆
      (periodOf [witRec "Amy" 50 100 2] 20000 21000).map (fun r => r.name) ∧
    legalPerformersTTP [witRec "Amy" 50 100 2] 20000 21000 [] ⊆
      legalPerformersTTP [witRec "Amy" 50 100 2] 20000 21000 ["0:00"] ∧
    legalHoursPTT [witRec "Amy" 50 100 2] 20000 21000 ["Amy"] ⊆
      (periodOf [witRec "Amy" 50 100 2] 20000 21000).map (fun r => r.hour) ∧
    legalHoursPTT [witRec "Amy" 50 100 2] 20000 21000 [] ⊆
      legalHoursPTT [witRec "Amy" 50 100 2] 20000 21000 ["Amy"] :=
  C1_dependent_filter_monotonicity [witRec "Amy" 50 100 2] 20000 21000
    ["0:00"] [] ["Amy"] [] (by simp) (by simp)

/-- C2 counterexample: the numeric serial 3000000 parses as a number, but
`datetime(1899,12,30) + timedelta(days=3000000)` overflows Python's
`datetime` range, so `parse_date` falls back to
`pd.to_datetime(3000000)`, which reads the number as nanoseconds since
the unix epoch — not as the epoch-1899 day offset the claim asserts. -/
theorem C2_counterexample :
    parse_date (fun _ => none) (.num 3000000) = some (1 / 28800000) ∧
    (1 / 28800000 : ℚ) ≠ epoch1899 + 3000000 := by
  constructor
  · norm_num [parse_date, pyFloat, epoch1899, inPyDatetimeRange, pyDatetimeMin,
      pyDatetimeMaxEx, pdToDatetime, inNsRange, ns64Max, nsPerDay]
  · norm_num [epoch1899]

/-- C2 (amended): for every cell value that parses as a number `q`
(numbers and numeric strings alike, fractional values included), as long
as the epoch-1899 offset stays inside Python `datetime`'s representable
range, the normalizer returns exactly epoch(1899-12-30) + `q` days —
independently of the text-date parser, i.e. numeric interpretation is
attempted first. -/
theorem C2_numeric_serial (toDT : String → Option ℚ) (v : CellValue) (q : ℚ)
    (hq : pyFloat v = some q) (h1 : pyDatetimeMin ≤ epoch1899 + q)
    (h2 : epoch1899 + q < pyDatetimeMaxEx) :
    parse_date toDT v = some (epoch1899 + q) := by
  unfold parse_date
  rw [hq]
  exact if_pos ⟨h1, h2⟩

/-- C2 witness: the numeric string "46023.25" normalizes to
1899-12-30 + 46023.25 days (= 2026-01-01 06:00) even when the text-date
parser would return something else. -/
theorem C2_witness :
    pyFloat (.text "46023.25") = some (184093 / 4) ∧
    pyDatetimeMin ≤ epoch1899 + 184093 / 4 ∧
    epoch1899 + 184093 / 4 < pyDatetimeMaxEx ∧
    parse_date (fun _ => some 0) (.text "46023.25") =
      some (epoch1899 + 184093 / 4) := by
  have hq : pyFloat (.text "46023.25") = some (184093 / 4) := by
    simp +decide [pyFloat, ratOfDecimalString?, strip, digitsToNat,
      List.dropWhile_cons, List.takeWhile_cons]
    norm_num
  have h1 : pyDatetimeMin ≤ epoch1899 + 184093 / 4 := by
    norm_num [pyDatetimeMin, epoch1899]
  have h2 : epoch1899 + 184093 / 4 < pyDatetimeMaxEx := by
    norm_num [pyDatetimeMaxEx, epoch1899]
  exact ⟨hq, h1, h2, C2_numeric_serial (fun _ => some 0) _ _ hq h1 h2⟩

/-- C3 counterexample: on a filtered record set containing a (reachable)
row with negative coerced sales, the aggregation's cost-per-sale guard
tests Python truthiness (`total != 0`), not positivity: with total sales
-2 and total spend 100 the code produces cost_per_sale = -50, while the
claim ("0 if total_sales_count is not positive") requires 0. -/
theorem C3_counterexample :
    aggregate (sanitize (fun _ => none) 50 [witRow "Amy" 100 (-2)]) =
      [{ name := "Amy", cost := 100, gmv := -100, sales := -2, rowCount := 1,
         roi := -1, cpa := -50 }] ∧
    ¬ (0 < (-2 : ℚ)) ∧ ((-50 : ℚ) ≠ 0) := by
  refine ⟨?_, by norm_num, by norm_num⟩
  rw [sanitize_witRow _ _ _ _ _ (by decide) (by norm_num), aggregate_singleton]
  norm_num [witRec]

/-- C3 (amended): the aggregation groups records by performer id, sums
spend, revenue and sales, counts contributing rows, and computes each
group's roi and cost_per_sale from the summed totals (never from per-row
ratio fields) — with zero guards that test the total for being nonzero
(Python truthiness), not for being positive. -/
theorem C3_aggregation_from_totals (rs : List CleanRecord) (g : PerfSummary)
    (hg : g ∈ aggregate rs) :
    g.cost = ((rs.filter (fun r => decide (r.name = g.name))).map
      (fun r => r.cost)).sum ∧
    g.gmv = ((rs.filter (fun r => decide (r.name = g.name))).map
      (fun r => r.gmv)).sum ∧
    g.sales = ((rs.filter (fun r => decide (r.name = g.name))).map
      (fun r => r.sales)).sum ∧
    g.rowCount = (rs.filter (fun r => decide (r.name = g.name))).length ∧
    g.roi = (if g.cost ≠ 0 then g.gmv / g.cost else 0) ∧
    g.cpa = (if g.sales ≠ 0 then g.cost / g.sales else 0) := by
  simp only [aggregate, List.mem_map] at hg
  obtain ⟨n, hn, rfl⟩ := hg
  exact ⟨rfl, rfl, rfl, rfl, rfl, rfl⟩

end Zhubo

namespace Zhubo

/-- Evaluation of aggregation on the single surviving Amy record. -/
theorem aggregate_amy :
    aggregate [witRec "Amy" 50 100 2] =
      [{ name := "Amy", cost := 100, gmv := 100, sales := 2, rowCount := 1,
         roi := 1, cpa := 50 }] := by
  rw [aggregate_singleton]
  norm_num [witRec]

/-- C3 witness: the totals-based aggregation theorem instantiated on the
one-record Amy dataset. -/
theorem C3_witness :
    ({ name := "Amy", cost := 100, gmv := 100, sales := 2, rowCount := 1,
       roi := 1, cpa := 50 } : PerfSummary).cost =
      (([witRec "Amy" 50 100 2].filter
        (fun r => decide (r.name = "Amy"))).map (fun r => r.cost)).sum ∧
    ({ name := "Amy", cost := 100, gmv := 100, sales := 2, rowCount := 1,
       roi := 1, cpa := 50 } : PerfSummary).gmv =
      (([witRec "Amy" 50 100 2].filter
        (fun r => decide (r.name = "Amy"))).map (fun r => r.gmv)).sum ∧
    ({ name := "Amy", cost := 100, gmv := 100, sales := 2, rowCount := 1,
       roi := 1, cpa := 50 } : PerfSummary).sales =
      (([witRec "Amy" 50 100 2].filter
        (fun r => decide (r.name = "Amy"))).map (fun r => r.sales)).sum ∧
    ({ name := "Amy", cost := 100, gmv := 100, sales := 2, rowCount := 1,
       roi := 1, cpa := 50 } : PerfSummary).rowCount =
      ([witRec "Amy" 50 100 2].filter
        (fun r => decide (r.name = "Amy"))).length ∧
    ({ name := "Amy", cost := 100, gmv := 100, sales := 2, rowCount := 1,
       roi := 1, cpa := 50 } : PerfSummary).roi =
      (if (100 : ℚ) ≠ 0 then 100 / 100 else 0) ∧
    ({ name := "Amy", cost := 100, gmv := 100, sales := 2, rowCount := 1,
       roi := 1, cpa := 50 } : PerfSummary).cpa =
      (if (2 : ℚ) ≠ 0 then 100 / 2 else 0) :=
  C3_aggregation_from_totals [witRec "Amy" 50 100 2] _
    (by rw [aggregate_amy]; exact List.mem_singleton.mpr rfl)

/-- Summary A of the spec's ranking example (roi = 2.0). -/
def sumA : PerfSummary :=
  { name := "A", cost := 100, gmv := 200, sales := 2, rowCount := 1,
    roi := 2, cpa := 50 }

/-- Summary B of the spec's ranking example (roi = 2.0, inserted after A). -/
def sumB : PerfSummary :=
  { name := "B", cost := 50, gmv := 100, sales := 1, rowCount := 1,
    roi := 2, cpa := 50 }

/-- Summary C of the spec's ranking example (roi = 1.5). -/
def sumC : PerfSummary :=
  { name := "C", cost := 100, gmv := 150, sales := 2, rowCount := 1,
    roi := 3 / 2, cpa := 50 }

/-- C4 counterexample: ties do NOT break on insertion (first-grouping)
order.  In a dataset whose first occurrence is "bella" (then "anna"),
both with equal ROI, the ranking by ROI descending returns
["anna", "bella"]: pandas `groupby` (default `sort=True`) orders the
groups by key, so the tie order is performer-id ascending, not
first-insertion order (which would give ["bella", "anna"]). -/
theorem C4_counterexample :
    (sanitize (fun _ => none) 50
        [witRow "bella" 100 2, witRow "anna" 100 2]).map (fun r => r.name) =
      ["bella", "anna"] ∧
    (rank .roi (aggregate (sanitize (fun _ => none) 50
        [witRow "bella" 100 2, witRow "anna" 100 2]))).map (fun g => g.name) =
      ["anna", "bella"] ∧
    ∀ g ∈ aggregate (sanitize (fun _ => none) 50
        [witRow "bella" 100 2, witRow "anna" 100 2]), g.roi = 1 := by
  refine ⟨?_, ?_, ?_⟩
  · rw [sanitize_cons_witRow _ _ _ _ _ _ (by decide) (by norm_num),
      sanitize_witRow _ _ _ _ _ (by decide) (by norm_num)]
    simp [witRec]
  · rw [aggregate_bella_anna]
    norm_num [rank, ascendingOrder, metricVal]
  · rw [aggregate_bella_anna]
    intro g hg
    simp only [List.mem_cons, List.not_mem_nil, or_false] at hg
    rcases hg with rfl | rfl <;> rfl

/-- C4 (amended): the ranking sorts descending by the selected metric for
every metric except cost-per-sale, which sorts ascending; it permutes the
summaries, preserves the relative order of any pair already ordered by the
sort relation (so ties keep the aggregated table's order, which is
performer-id ascending, not first-insertion order); the {A,B,C} example
with A and B tied at roi = 2 still yields [A, B, C], and the result is
deterministic. -/
theorem C4_ranking_policy (m : RankMetric) (l : List PerfSummary) :
    (ascendingOrder m = true ↔ m = RankMetric.cpa) ∧
    (rank m l).Perm l ∧
    (rank m l).Sorted (fun a b =>
      if ascendingOrder m then metricVal m a ≤ metricVal m b
      else metricVal m b ≤ metricVal m a) ∧
    (∀ a b, [a, b].Sublist l →
      (if ascendingOrder m then metricVal m a ≤ metricVal m b
       else metricVal m b ≤ metricVal m a) →
      [a, b].Sublist (rank m l)) ∧
    rank m l = rank m l ∧
    rank RankMetric.roi [sumA, sumB, sumC] = [sumA, sumB, sumC] := by
  refine ⟨by simp [ascendingOrder], ?_, ?_, ?_, rfl, ?_⟩
  · unfold rank
    split
    · exact List.perm_insertionSort _ _
    · exact List.perm_insertionSort _ _
  · cases hA : ascendingOrder m
    · simp only [rank, hA, Bool.false_eq_true, if_false]
      haveI : IsTotal PerfSummary (fun a b => metricVal m b ≤ metricVal m a) :=
        ⟨fun a b => le_total _ _⟩
      haveI : IsTrans PerfSummary (fun a b => metricVal m b ≤ metricVal m a) :=
        ⟨fun a b c hab hbc => le_trans hbc hab⟩
      exact List.sorted_insertionSort _ _
    · simp only [rank, hA, if_true]
      haveI : IsTotal PerfSummary (fun a b => metricVal m a ≤ metricVal m b) :=
        ⟨fun a b => le_total _ _⟩
      haveI : IsTrans PerfSummary (fun a b => metricVal m a ≤ metricVal m b) :=
        ⟨fun a b c hab hbc => le_trans hab hbc⟩
      exact List.sorted_insertionSort _ _
  · intro a b hab hrel
    cases hA : ascendingOrder m
    · simp only [rank, hA, Bool.false_eq_true, if_false]
      rw [hA] at hrel
      simp only [Bool.false_eq_true, if_false] at hrel
      exact List.pair_sublist_insertionSort hrel hab
    · simp only [rank, hA, if_true]
      rw [hA] at hrel
      simp only [if_true] at hrel
      exact List.pair_sublist_insertionSort hrel hab
  · norm_num [rank, ascendingOrder, metricVal, sumA, sumB, sumC]
    decide

end Zhubo

namespace Zhubo

/-- C5: during sanitization, non-numeric or missing spend/sales cells are
coerced to 0 by `toNum` rather than dropping the row at the coercion step,
and every row whose coerced spend is not positive is absent from the
sanitizer's output: every surviving record has spend > 0. -/
theorem C5_coercion_and_positive_spend :
    (∀ s : String, ratOfDecimalString? s = none → toNum (.text s) = 0) ∧
    toNum .empty = 0 ∧
    (∀ (toDT : String → Option ℚ) (price : ℚ) (rows : List RawRow)
      (r : CleanRecord), r ∈ sanitize toDT price rows → 0 < r.cost) :=
  ⟨fun s hs => by simp [toNum, hs], rfl,
   fun _ _ _ _ h => sanitize_cost_pos h⟩

/-- C5 witness: a non-numeric cell coerces to 0, and the surviving Amy
record has positive spend. -/
theorem C5_witness :
    ratOfDecimalString? "n/a" = none ∧
    toNum (.text "n/a") = 0 ∧
    0 < (witRec "Amy" 50 100 2).cost :=
  ⟨by decide,
   C5_coercion_and_positive_spend.1 "n/a" (by decide),
   C5_coercion_and_positive_spend.2.2 (fun _ => none) 50 [witRow "Amy" 100 2]
     (witRec "Amy" 50 100 2)
     (by rw [sanitize_witRow _ _ _ _ _ (by decide) (by norm_num)]
         exact List.mem_singleton.mpr rfl)⟩

/-- C6: every clean record produced by the sanitizer satisfies the record
invariant: spend > 0, the performer id is non-empty after trimming, the
stored calendar date belongs to the stored timestamp, and the timestamp's
year strictly exceeds the minimum-year sanity threshold 2020. -/
theorem C6_clean_record_invariant (toDT : String → Option ℚ) (price : ℚ)
    (rows : List RawRow) (r : CleanRecord)
    (h : r ∈ sanitize toDT price rows) :
    0 < r.cost ∧ strip r.name ≠ "" ∧
    r.date = dateOf r.stdTime ∧ 2020 < yearOfDay r.date := by
  obtain ⟨row, -, t, -, hstd, hdate, -, hy, -, hstrip, -, -, -, hc, -, -⟩ :=
    sanitize_mem h
  exact ⟨hc, hstrip, by rw [hdate, hstd], by rw [hdate]; exact hy⟩

/-- C6 witness: the invariant theorem instantiated on the surviving Amy
record (serial 46023 = 2026-01-01, year 2026 > 2020). -/
theorem C6_witness :
    0 < (witRec "Amy" 50 100 2).cost ∧
    strip (witRec "Amy" 50 100 2).name ≠ "" ∧
    (witRec "Amy" 50 100 2).date = dateOf (witRec "Amy" 50 100 2).stdTime ∧
    2020 < yearOfDay (witRec "Amy" 50 100 2).date :=
  C6_clean_record_invariant (fun _ => none) 50 [witRow "Amy" 100 2]
    (witRec "Amy" 50 100 2)
    (by rw [sanitize_witRow _ _ _ _ _ (by decide) (by norm_num)]
        exact List.mem_singleton.mpr rfl)

/-- C7: the filter engine surfaces its two empty-input conditions as
distinct named signals and stops: an empty period yields the
`noDataInPeriod` signal (not empty output), and an empty
priority-dimension selection (hours in TimeThenPerformer mode, performers
in PerformerThenTime mode) yields the distinct `selectionRequired` signal
with no fallback to "all values". -/
theorem C7_empty_period_and_empty_selection (rs : List CleanRecord)
    (d1 d2 : ℤ) (mode : FilterMode) (hs ns : List String) :
    (periodOf rs d1 d2 = [] →
      filterEngine rs d1 d2 mode hs ns = .error .noDataInPeriod) ∧
    (periodOf rs d1 d2 ≠ [] → mode = .timeThenPerformer → hs = [] →
      filterEngine rs d1 d2 mode hs ns = .error .selectionRequired) ∧
    (periodOf rs d1 d2 ≠ [] → mode = .performerThenTime → ns = [] →
      filterEngine rs d1 d2 mode hs ns = .error .selectionRequired) := by
  refine ⟨fun hp => ?_, fun hp hm hsel => ?_, fun hp hm hsel => ?_⟩
  · unfold filterEngine
    simp [hp]
  · subst hm hsel
    unfold filterEngine
    simp [List.isEmpty_iff, hp]
  · subst hm hsel
    unfold filterEngine
    simp [List.isEmpty_iff, hp]

/-- The one-record period around unix day 20454 is non-empty. -/
theorem periodOf_amy_ne :
    periodOf [witRec "Amy" 50 100 2] 20000 21000 ≠ [] := by decide

/-- C7 witness: the three signals on concrete inputs — an empty dataset,
then a non-empty period with an empty hour selection, then a non-empty
period with an empty performer selection. -/
theorem C7_witness :
    filterEngine [] 0 1 .timeThenPerformer ["0:00"] ["Amy"] =
      .error .noDataInPeriod ∧
    filterEngine [witRec "Amy" 50 100 2] 20000 21000 .timeThenPerformer []
      ["Amy"] = .error .selectionRequired ∧
    filterEngine [witRec "Amy" 50 100 2] 20000 21000 .performerThenTime
      ["0:00"] [] = .error .selectionRequired :=
  ⟨(C7_empty_period_and_empty_selection [] 0 1 .timeThenPerformer ["0:00"]
      ["Amy"]).1 rfl,
   (C7_empty_period_and_empty_selection [witRec "Amy" 50 100 2] 20000 21000
      .timeThenPerformer [] ["Amy"]).2.1 periodOf_amy_ne rfl rfl,
   (C7_empty_period_and_empty_selection [witRec "Amy" 50 100 2] 20000 21000
      .performerThenTime ["0:00"] []).2.2 periodOf_amy_ne rfl rfl⟩

/-- C8: every clean record's revenue is derived as sales_count × unit
price (the caller-supplied constant) — the realized branch of the spec's
configuration choice; the script has no direct revenue column. -/
theorem C8_revenue_derivation (toDT : String → Option ℚ) (price : ℚ)
    (rows : List RawRow) (r : CleanRecord)
    (h : r ∈ sanitize toDT price rows) :
    r.gmv = r.sales * price := by
  obtain ⟨row, -, t, -, -, -, -, -, -, -, -, -, hgmv, -, -, -⟩ :=
    sanitize_mem h
  exact hgmv

/-- C8 witness: the Amy record's revenue is its sales times the unit
price 50. -/
theorem C8_witness :
    (witRec "Amy" 50 100 2).gmv = (witRec "Amy" 50 100 2).sales * 50 :=
  C8_revenue_derivation (fun _ => none) 50 [witRow "Amy" 100 2]
    (witRec "Amy" 50 100 2)
    (by rw [sanitize_witRow _ _ _ _ _ (by decide) (by norm_num)]
        exact List.mem_singleton.mpr rfl)

/-- C9 counterexample: the sanitizer does not enforce non-negative sales:
a numeric sales cell of -3 passes the coercion (`to_numeric` keeps
negative numbers) and the row survives (its spend is positive), so the
output contains a record with sales_count = -3 < 0, contradicting the
claim that every record the engine operates on has sales_count ≥ 0. -/
theorem C9_counterexample :
    (sanitize (fun _ => none) 50 [witRow "Amy" 100 (-3)]).map
      (fun r => r.sales) = [-3] ∧ (-3 : ℚ) < 0 := by
  refine ⟨?_, by norm_num⟩
  rw [sanitize_witRow _ _ _ _ _ (by decide) (by norm_num)]
  simp [witRec]

/-- C9 (amended): the sanitizer preserves sales values, so sales_count is
non-negative for every record whose raw sales cell coerces to a
non-negative number (in particular for missing or non-numeric cells,
which coerce to 0); only explicitly negative numeric sales violate it. -/
theorem C9_sales_nonneg_of_inputs (toDT : String → Option ℚ) (price : ℚ)
    (rows : List RawRow)
    (hrows : ∀ row ∈ rows, 0 ≤ toNum row.sales) :
    ∀ r ∈ sanitize toDT price rows, 0 ≤ r.sales := by
  intro r hr
  obtain ⟨row, hrow, t, -, -, -, -, -, -, -, -, hsales, -, -, -, -⟩ :=
    sanitize_mem hr
  rw [hsales]
  exact hrows row hrow

/-- C9 witness: on the Amy row with sales 2 the amended theorem yields a
non-negative sales count. -/
theorem C9_witness : 0 ≤ (witRec "Amy" 50 100 2).sales :=
  C9_sales_nonneg_of_inputs (fun _ => none) 50 [witRow "Amy" 100 2]
    (by intro row hrow
        simp only [List.mem_singleton] at hrow
        subst hrow
        norm_num [witRow, toNum])
    (witRec "Amy" 50 100 2)
    (by rw [sanitize_witRow _ _ _ _ _ (by decide) (by norm_num)]
        exact List.mem_singleton.mpr rfl)

/-- C10: because every record entering aggregation has spend > 0 (they all
come from the sanitizer through the filter engine), each performer group's
total spend is strictly positive, so the ROI zero-guard is unreachable and
every summary's roi equals total revenue / total spend exactly; the same
holds for the blended headline ROI whenever the filtered set is
non-empty. -/
theorem C10_roi_guard_unreachable (toDT : String → Option ℚ) (price : ℚ)
    (rows : List RawRow) (d1 d2 : ℤ) (mode : FilterMode)
    (hs ns : List String) (out : FilterOutput)
    (h : filterEngine (sanitize toDT price rows) d1 d2 mode hs ns = .ok out)
    (hne : out.finalRecords ≠ []) :
    (∀ g ∈ aggregate out.finalRecords, 0 < g.cost ∧ g.roi = g.gmv / g.cost) ∧
    0 < t_cost out.finalRecords ∧
    avg_roi out.finalRecords =
      t_gmv out.finalRecords / t_cost out.finalRecords := by
  have hsub := filterEngine_ok_subset h
  have hpos : ∀ r ∈ out.finalRecords, 0 < r.cost := fun r hr =>
    sanitize_cost_pos (hsub r hr)
  refine ⟨aggregate_cost_pos hpos, ?_⟩
  have hc : 0 < t_cost out.finalRecords := by
    apply List.sum_pos
    · intro x hx
      obtain ⟨r, hr, rfl⟩ := List.mem_map.mp hx
      exact hpos r hr
    · intro hmapnil
      exact hne (List.map_eq_nil_iff.mp hmapnil)
  refine ⟨hc, ?_⟩
  unfold avg_roi
  rw [if_pos (ne_of_gt hc)]

/-- C10 witness: the full pipeline on the one-row Amy dataset — sanitize,
filter in TimeThenPerformer mode, aggregate — produces a group with
positive spend and roi = revenue / spend, and the headline ROI is the
totals ratio. -/
theorem C10_witness :
    (∀ g ∈ aggregate [witRec "Amy" 50 100 2],
      0 < g.cost ∧ g.roi = g.gmv / g.cost) ∧
    0 < t_cost [witRec "Amy" 50 100 2] ∧
    avg_roi [witRec "Amy" 50 100 2] =
      t_gmv [witRec "Amy" 50 100 2] / t_cost [witRec "Amy" 50 100 2] :=
  C10_roi_guard_unreachable (fun _ => none) 50 [witRow "Amy" 100 2]
    20000 21000 .timeThenPerformer ["0:00"] ["Amy"]
    { finalRecords := [witRec "Amy" 50 100 2], legalHours := ["0:00"],
      legalPerformers := ["Amy"] }
    (by rw [sanitize_witRow _ _ _ _ _ (by decide) (by norm_num)]
        rfl)
    (by decide)

end Zhubo

namespace Zhubo

/-- C4 witness: the ranking-policy theorem instantiated at the
cost-per-sale metric and the empty summary list. -/
theorem C4_witness :
    (ascendingOrder RankMetric.cpa = true ↔
      RankMetric.cpa = RankMetric.cpa) ∧
    (rank RankMetric.cpa []).Perm [] ∧
    (rank RankMetric.cpa []).Sorted (fun a b =>
      if ascendingOrder RankMetric.cpa then
        metricVal RankMetric.cpa a ≤ metricVal RankMetric.cpa b
      else metricVal RankMetric.cpa b ≤ metricVal RankMetric.cpa a) ∧
    (∀ a b, [a, b].Sublist ([] : List PerfSummary) →
      (if ascendingOrder RankMetric.cpa then
        metricVal RankMetric.cpa a ≤ metricVal RankMetric.cpa b
       else metricVal RankMetric.cpa b ≤ metricVal RankMetric.cpa a) →
      [a, b].Sublist (rank RankMetric.cpa [])) ∧
    rank RankMetric.cpa [] = rank RankMetric.cpa [] ∧
    rank RankMetric.roi [sumA, sumB, sumC] = [sumA, sumB, sumC] :=
  C4_ranking_policy RankMetric.cpa []

end Zhubo
